import Mathlib

/-!
Verification of the streamer-donation backend
(`examples/python/streamer-donation/backend`).

The Python sources are shallowly embedded:
* Python `float` amounts are modelled as exact rationals (`ℚ`);
* Python `int` values as `Int` / `Nat`;
* the RocksDB instance as an association list of `(key, value)` pairs;
  RocksDB iterates keys in byte-lexicographic order, which on the ASCII
  keys used here (`"streamers:<id>"`, `"donations:<id>"`) coincides with
  character-lexicographic order on the key strings; sortedness of the
  store is an explicit hypothesis (`DBSorted`) where a theorem needs it;
* a stored value is modelled by `DBVal`: the empty byte string, a
  non-empty byte string that fails JSON decoding or entity
  reconstruction (`corrupt`), or a JSON object carrying the fields of a
  streamer / donation record (`streamerVal` / `donationVal`), since
  these are the only observations the scanning code makes of a value;
* `raise` / caught exceptions become `Except` / `Option` results, and a
  method that writes to the store returns the new store explicitly.
-/

/-! ## Domain data (app/models/dtos.py) -/

/-- Supported streaming platforms (`Platform(str, Enum)`). -/
inductive Platform
  | youtube
  | twitch
deriving DecidableEq, Repr

/-- The `.value` payload of a `Platform` enum member. -/
def Platform.value : Platform → String
  | .youtube => "youtube"
  | .twitch => "twitch"

/-- Reconstruction `Platform(p)` from a stored string; an unknown value
raises `ValueError` in Python, modelled as `none`. -/
def Platform.ofValue : String → Option Platform
  | "youtube" => some .youtube
  | "twitch" => some .twitch
  | _ => none

/-- `DonationTier` dataclass. -/
structure DonationTier where
  amount_usd : ℚ
  popup_message : String
  duration_ms : Int
deriving DecidableEq, Repr

/-- `Streamer` dataclass. -/
structure Streamer where
  id : String
  name : String
  wallet_address : String
  platforms : List Platform
  donation_tiers : List DonationTier
  thank_you_message : String
  avatar_url : Option String
deriving DecidableEq, Repr

/-- `DonationMessage` dataclass. -/
structure DonationMessage where
  donation_id : String
  streamer_id : String
  amount_usd : ℚ
  donor_address : String
  tx_hash : String
  timestamp : Int
  message : Option String
  clip_url : Option String
deriving DecidableEq, Repr

/-! ## Stored JSON objects (the dicts written by app/core/database.py)

`put_streamer` / `put_donation` build a `dict` and store
`json.dumps(data).encode("utf-8")`; the readers run `json.loads` and
rebuild the dataclass.  `json.dumps` / `json.loads` are mutually inverse
on these dicts (strings, exact decimals, integers, `None`, flat lists),
so the codec is modelled at the level of the JSON object itself. -/

/-- The tier sub-object stored inside a streamer record. -/
structure TierRecord where
  amount_usd : ℚ
  popup_message : String
  duration_ms : Int
deriving DecidableEq, Repr

/-- The JSON object stored by `put_streamer` (database.py:75-90). -/
structure StreamerRecord where
  id : String
  name : String
  wallet_address : String
  platforms : List String
  avatar_url : Option String
  donation_tiers : List TierRecord
  thank_you_message : String
deriving DecidableEq, Repr

/-- The JSON object stored by `put_donation` (database.py:259-268). -/
structure DonationRecord where
  donation_id : String
  streamer_id : String
  amount_usd : ℚ
  donor_address : String
  tx_hash : String
  timestamp : Int
  message : Option String
  clip_url : Option String
deriving DecidableEq, Repr

/-- Dict built by `put_streamer` from a `Streamer` (database.py:75-90). -/
def encodeStreamer (s : Streamer) : StreamerRecord :=
  { id := s.id
    name := s.name
    wallet_address := s.wallet_address
    platforms := s.platforms.map Platform.value
    avatar_url := s.avatar_url
    donation_tiers := s.donation_tiers.map fun t =>
      { amount_usd := t.amount_usd
        popup_message := t.popup_message
        duration_ms := t.duration_ms }
    thank_you_message := s.thank_you_message }

/-- Reconstruction of a `Streamer` from a stored record
(database.py:120-128).  `Platform(p)` raises on an unknown platform
string, so decoding is partial; `[Platform(p) for p in ...]` raises at
the first unknown value. -/
def decodePlatforms : List String → Option (List Platform)
  | [] => some []
  | p :: ps =>
      match Platform.ofValue p with
      | none => none
      | some x =>
          match decodePlatforms ps with
          | none => none
          | some xs => some (x :: xs)

def decodeStreamer (r : StreamerRecord) : Option Streamer :=
  match decodePlatforms r.platforms with
  | none => none
  | some ps =>
      some
        { id := r.id
          name := r.name
          wallet_address := r.wallet_address
          platforms := ps
          avatar_url := r.avatar_url
          donation_tiers := r.donation_tiers.map fun t =>
            { amount_usd := t.amount_usd
              popup_message := t.popup_message
              duration_ms := t.duration_ms }
          thank_you_message := r.thank_you_message }

/-- Dict built by `put_donation` from a `DonationMessage`
(database.py:259-268). -/
def encodeDonation (d : DonationMessage) : DonationRecord :=
  { donation_id := d.donation_id
    streamer_id := d.streamer_id
    amount_usd := d.amount_usd
    donor_address := d.donor_address
    tx_hash := d.tx_hash
    timestamp := d.timestamp
    message := d.message
    clip_url := d.clip_url }

/-- Reconstruction of a `DonationMessage` from a stored record
(database.py:294-303); all fields are plain data, so it is total. -/
def decodeDonation (r : DonationRecord) : DonationMessage :=
  { donation_id := r.donation_id
    streamer_id := r.streamer_id
    amount_usd := r.amount_usd
    donor_address := r.donor_address
    tx_hash := r.tx_hash
    timestamp := r.timestamp
    message := r.message
    clip_url := r.clip_url }

/-! ## The key-value store model -/

/-- A value held in RocksDB, classified by what `json.loads` plus
entity reconstruction can observe of it. -/
inductive DBVal
  | empty
  | corrupt
  | streamerVal (r : StreamerRecord)
  | donationVal (r : DonationRecord)
deriving DecidableEq, Repr

/-- Python truthiness of the raw byte-string value returned by
`self.db.get(key)`: only the empty byte string is falsy. -/
def DBVal.truthy : DBVal → Bool
  | .empty => false
  | _ => true

/-- The store: keys with their values, in RocksDB iteration order. -/
abbrev DB := List (String × DBVal)

/-- Byte-lexicographic comparison of two keys (RocksDB's default
comparator), on their character lists; the keys in this system are
ASCII, where character order and byte order agree. -/
def keyLt : List Char → List Char → Bool
  | _, [] => false
  | [], _ :: _ => true
  | a :: as, b :: bs =>
      if a < b then true
      else if b < a then false
      else keyLt as bs

/-- Python's `key_str.startswith(p)`. -/
def pyStartsWith (s p : String) : Bool :=
  p.data.isPrefixOf s.data

/-- Python's `str.lower()` on the ASCII strings this system compares
(wallet addresses, hex digits). -/
def asciiLowerChar (c : Char) : Char :=
  if 'A' ≤ c ∧ c ≤ 'Z' then Char.ofNat (c.toNat + 32) else c

/-- ASCII `str.lower()` on a whole string. -/
def asciiLower (s : String) : String :=
  ⟨s.data.map asciiLowerChar⟩

/-- Python's `str.upper()` on ASCII strings. -/
def asciiUpperChar (c : Char) : Char :=
  if 'a' ≤ c ∧ c ≤ 'z' then Char.ofNat (c.toNat - 32) else c

/-- ASCII `str.upper()` on a whole string. -/
def asciiUpper (s : String) : String :=
  ⟨s.data.map asciiUpperChar⟩

/-- Point lookup `self.db.get(key)`. -/
def dbGet : DB → String → Option DBVal
  | [], _ => none
  | (k, v) :: rest, key => if k = key then some v else dbGet rest key

/-- Write `self.db[key] = value`: overwrite an existing key or insert
at the key's position in iteration order. -/
def dbInsert : DB → String → DBVal → DB
  | [], key, v => [(key, v)]
  | (k, w) :: rest, key, v =>
      if key = k then (key, v) :: rest
      else if keyLt key.data k.data then (key, v) :: (k, w) :: rest
      else (k, w) :: dbInsert rest key v

/-- `self.db.delete(key)`. -/
def dbDelete (db : DB) (key : String) : DB :=
  List.filter (fun e => e.1 ≠ key) db

/-- `self.db.items(from_key=k)`: the iterator seeks to the first key
that is not below `k` and yields from there. -/
def dbItemsFrom (db : DB) (k : String) : List (String × DBVal) :=
  List.dropWhile (fun e => keyLt e.1.data k.data) db

/-- The store with its keys in strictly ascending byte order, as
RocksDB maintains and iterates them. -/
def DBSorted (db : DB) : Prop :=
  List.Pairwise (fun a b => keyLt a.1.data b.1.data = true) db

instance : DecidablePred DBSorted := fun db =>
  inferInstanceAs (Decidable (List.Pairwise _ db))

instance {ε α : Type _} [DecidableEq ε] [DecidableEq α] :
    DecidableEq (Except ε α) := fun a b =>
  match a, b with
  | .error x, .error y =>
      if h : x = y then .isTrue (h ▸ rfl)
      else .isFalse fun hc => h (Except.error.inj hc)
  | .error _, .ok _ => .isFalse Except.noConfusion
  | .ok _, .error _ => .isFalse Except.noConfusion
  | .ok x, .ok y =>
      if h : x = y then .isTrue (h ▸ rfl)
      else .isFalse fun hc => h (Except.ok.inj hc)

/-! ## DonationDB operations (app/core/database.py) -/

/-- `put_streamer` (database.py:62-98): store the encoded record at
key `"streamers:<id>"`. -/
def DonationDB.put_streamer (db : DB) (s : Streamer) : DB :=
  dbInsert db ("streamers:" ++ s.id) (.streamerVal (encodeStreamer s))

/-- `get_streamer` (database.py:100-135): point read; a missing key is
`None`, while a corrupted value or a failed reconstruction raises
(modelled as `Except.error`). -/
def DonationDB.get_streamer (db : DB) (streamer_id : String) :
    Except Unit (Option Streamer) :=
  match dbGet db ("streamers:" ++ streamer_id) with
  | none => .ok none
  | some .empty => .error ()
  | some .corrupt => .error ()
  | some (.streamerVal r) =>
      match decodeStreamer r with
      | some s => .ok (some s)
      | none => .error ()
  | some (.donationVal _) => .error ()

/-- Loop body of `get_streamer_by_wallet` (database.py:152-178): the
iterator starts at the FIRST key of the store (`self.db.items()` with
no `from_key`), breaks at the first key that does not start with
`"streamers:"`, and otherwise compares the record's lowercased
`wallet_address` with the lowercased query, skipping records whose
decoding or reconstruction raises. -/
def getStreamerByWalletLoop (wallet_lower : String) :
    List (String × DBVal) → Option Streamer
  | [] => none
  | (k, v) :: rest =>
      if ¬ pyStartsWith k "streamers:" then none
      else
        match v with
        | .streamerVal r =>
            if asciiLower r.wallet_address = wallet_lower then
              match decodeStreamer r with
              | some s => some s
              | none => getStreamerByWalletLoop wallet_lower rest
            else getStreamerByWalletLoop wallet_lower rest
        | _ => getStreamerByWalletLoop wallet_lower rest

/-- `get_streamer_by_wallet` (database.py:137-178). -/
def DonationDB.get_streamer_by_wallet (db : DB) (wallet_address : String) :
    Option Streamer :=
  getStreamerByWalletLoop (asciiLower wallet_address) db

/-- Generic scan loop shared by `list_streamers` and
`list_donations_by_streamer`: break at the first key outside the
prefix, break once `limit` records have been collected (the Python
loops compare `len(acc) >= limit`, modelled as a remaining budget),
extract a record from the value with `g`, and skip values on which `g`
fails (decode errors, wrong entity kind, filtered-out records). -/
def scanKV (p : String) (g : DBVal → Option α) :
    Nat → List (String × DBVal) → List α
  | _, [] => []
  | limit, (k, v) :: rest =>
      if ¬ pyStartsWith k p then []
      else if limit = 0 then []
      else
        match g v with
        | some a => a :: scanKV p g (limit - 1) rest
        | none => scanKV p g limit rest

/-- Value extraction performed by the `list_streamers` loop body
(database.py:203-218): reconstruct a `Streamer` from the JSON object,
skipping on any exception. -/
def streamerOfVal : DBVal → Option Streamer
  | .streamerVal r => decodeStreamer r
  | _ => none

/-- `list_streamers` (database.py:180-220): scan from
`from_key=b"streamers:"`. -/
def DonationDB.list_streamers (db : DB) (limit : Nat) : List Streamer :=
  scanKV "streamers:" streamerOfVal limit (dbItemsFrom db "streamers:")

/-- `delete_streamer` (database.py:222-242): `if self.db.get(key):` —
the record is deleted only when the stored value is truthy. -/
def DonationDB.delete_streamer (db : DB) (streamer_id : String) : DB × Bool :=
  let key := "streamers:" ++ streamer_id
  match dbGet db key with
  | some v => if v.truthy then (dbDelete db key, true) else (db, false)
  | none => (db, false)

/-- `put_donation` (database.py:246-276). -/
def DonationDB.put_donation (db : DB) (d : DonationMessage) : DB :=
  dbInsert db ("donations:" ++ d.donation_id) (.donationVal (encodeDonation d))

/-- `get_donation` (database.py:278-310): note the truthiness test
`if value:` — an empty stored byte string yields `None` rather than a
decode error. -/
def DonationDB.get_donation (db : DB) (donation_id : String) :
    Except Unit (Option DonationMessage) :=
  match dbGet db ("donations:" ++ donation_id) with
  | none => .ok none
  | some .empty => .ok none
  | some .corrupt => .error ()
  | some (.donationVal r) => .ok (some (decodeDonation r))
  | some (.streamerVal _) => .error ()

/-- Value extraction performed by the `list_donations_by_streamer`
loop body (database.py:340-357): `data.get("streamer_id")` must equal
the queried id, then the `DonationMessage` is rebuilt. -/
def donationOfVal (streamer_id : String) : DBVal → Option DonationMessage
  | .donationVal r =>
      if r.streamer_id = streamer_id then some (decodeDonation r) else none
  | _ => none

/-- Descending-timestamp order used by
`donations.sort(key=lambda d: d.timestamp, reverse=True)`. -/
def tsDesc (a b : DonationMessage) : Bool :=
  b.timestamp ≤ a.timestamp

/-- Stable insertion step for the descending-timestamp sort: a new
element goes after every strictly more recent element and after any
element with an equal timestamp that was scanned earlier. -/
def insertByTs (d : DonationMessage) : List DonationMessage → List DonationMessage
  | [] => [d]
  | x :: xs => if d.timestamp < x.timestamp then x :: insertByTs d xs else d :: x :: xs

/-- Python's `list.sort(key=lambda d: d.timestamp, reverse=True)` is a
stable descending sort; any stable sort computes the same list, so it
is modelled by a structural stable insertion sort. -/
def sortByTsDesc : List DonationMessage → List DonationMessage
  | [] => []
  | d :: ds => insertByTs d (sortByTsDesc ds)

/-- `list_donations_by_streamer` (database.py:312-361): scan from
`from_key=b"donations:"`, breaking once `limit` matching donations are
collected, then sort what was collected by timestamp descending. -/
def DonationDB.list_donations_by_streamer (db : DB) (streamer_id : String)
    (limit : Nat) : List DonationMessage :=
  sortByTsDesc (scanKV "donations:" (donationOfVal streamer_id) limit
      (dbItemsFrom db "donations:"))

/-- `get_donation_stats` (database.py:363-383): aggregate over the
listing capped at 10000. -/
def DonationDB.get_donation_stats (db : DB) (streamer_id : String) :
    ℚ × Nat × Nat :=
  let donations := DonationDB.list_donations_by_streamer db streamer_id 10000
  ((donations.map (fun d => d.amount_usd)).sum,
   donations.length,
   ((donations.map (fun d => asciiLower d.donor_address)).dedup).length)

/-! ## ValidationService (app/services/validation_service.py) -/

/-- Configured donation bounds: `ValidationService.__init__` defaults,
matching the deployed settings (`min_donation_usd=0.01`,
`max_donation_usd=1000.0`). -/
def min_donation_usd : ℚ := 1 / 100

/-- Upper donation bound. -/
def max_donation_usd : ℚ := 1000

/-- The two `ValueError` messages of `validate_amount_range`
(validation_service.py:109-119), modelled as tags (the claims never
inspect the formatted text). -/
inductive RangeErr
  | belowMin
  | aboveMax
deriving DecidableEq, Repr

/-- `validate_amount_range` (validation_service.py:88-121). -/
def validate_amount_range (amount_usd : ℚ) : Bool × Option RangeErr :=
  if amount_usd < min_donation_usd then (false, some .belowMin)
  else if amount_usd > max_donation_usd then (false, some .aboveMax)
  else (true, none)

/-- Loop of `validate_donation_tier_match`
(validation_service.py:146-150): `enumerate` index carried along. -/
def tierMatchLoop (amount_usd tolerance : ℚ) (idx : Nat) :
    List ℚ → Bool × Option Nat
  | [] => (false, none)
  | t :: ts =>
      if |t - amount_usd| < tolerance then (true, some idx)
      else tierMatchLoop amount_usd tolerance (idx + 1) ts

/-- `validate_donation_tier_match` (validation_service.py:123-150). -/
def validate_donation_tier_match (amount_usd : ℚ) (tier_amounts : List ℚ)
    (tolerance : ℚ) : Bool × Option Nat :=
  tierMatchLoop amount_usd tolerance 0 tier_amounts

/-- Model of the external `bleach.clean(message, tags=[], strip=True)`
call (validation_service.py:80): strips `<...>` tag spans from the
text.  No claim depends on its exact output; the pipeline only needs
it to be a total string transformation. -/
def bleachClean (s : String) : String :=
  ⟨stripTagChars s.data false⟩
where
  stripTagChars : List Char → Bool → List Char
    | [], _ => []
    | c :: cs, inTag =>
        if inTag then
          if c = '>' then stripTagChars cs false else stripTagChars cs true
        else
          if c = '<' then stripTagChars cs true else c :: stripTagChars cs false

/-- Python's ASCII `str.strip()` of surrounding whitespace. -/
def pyStrip (s : String) : String :=
  ⟨(s.data.dropWhile Char.isWhitespace).reverse.dropWhile Char.isWhitespace
    |>.reverse⟩

/-- `sanitize_message` (validation_service.py:54-86). -/
def sanitize_message (message : Option String) (max_length : Nat) :
    Option String :=
  match message with
  | none => none
  | some m =>
      if pyStrip m = "" then none
      else
        let clean := (bleachClean m).take max_length
        if pyStrip clean = "" then none else some (pyStrip clean)

/-! ## StreamerService (app/services/streamer_service.py) -/

/-- A tier configuration dict passed to `create_streamer`
(streamer_service.py:74-81): `duration_ms` defaults to 3000 via
`tier.get("duration_ms", 3000)`. -/
structure TierInput where
  amount_usd : ℚ
  popup_message : String
  duration_ms : Option Int
deriving DecidableEq, Repr

/-- `DonationTier(...)` built from one tier dict
(streamer_service.py:75-79). -/
def TierInput.toTier (t : TierInput) : DonationTier :=
  { amount_usd := t.amount_usd
    popup_message := t.popup_message
    duration_ms := t.duration_ms.getD 3000 }

/-- The `ValueError`s of `create_streamer`, as tags. -/
inductive CreateErr
  | walletTaken
  | tiersNotUnique
  | tiersNotSorted
deriving DecidableEq, Repr

/-- Stable insertion step for Python's ascending `sorted`. -/
def insertAsc (q : ℚ) : List ℚ → List ℚ
  | [] => [q]
  | x :: xs => if x ≤ q then x :: insertAsc q xs else q :: x :: xs

/-- Python's `sorted(amounts)`: a stable ascending sort, modelled by a
structural stable insertion sort (any stable sort computes the same
list). -/
def sortAsc : List ℚ → List ℚ
  | [] => []
  | q :: qs => insertAsc q (sortAsc qs)

/-- `create_streamer` (streamer_service.py:29-110).  The generated
`str(uuid.uuid4())` is passed in as `streamer_id`.  Python checks
`len(amounts) != len(set(amounts))` and `amounts != sorted(amounts)`;
`set` size is the number of distinct values (`List.dedup`). -/
def create_streamer (db : DB) (streamer_id name wallet_address : String)
    (platforms : List Platform) (donation_tiers : List TierInput)
    (avatar_url : Option String) (thank_you_message : String) :
    DB × Except CreateErr Streamer :=
  match DonationDB.get_streamer_by_wallet db wallet_address with
  | some _ => (db, .error .walletTaken)
  | none =>
      let tier_objects := donation_tiers.map TierInput.toTier
      let amounts := tier_objects.map fun t => t.amount_usd
      if amounts.dedup.length ≠ amounts.length then (db, .error .tiersNotUnique)
      else if amounts ≠ sortAsc amounts then
        (db, .error .tiersNotSorted)
      else
        let streamer : Streamer :=
          { id := streamer_id
            name := name
            wallet_address := wallet_address
            platforms := platforms
            donation_tiers := tier_objects
            thank_you_message := thank_you_message
            avatar_url := avatar_url }
        (DonationDB.put_streamer db streamer, .ok streamer)

/-- `StreamerService.list_streamers` (streamer_service.py:136-150):
clamp the limit to 1000 before delegating. -/
def service_list_streamers (db : DB) (limit : Nat) : List Streamer :=
  DonationDB.list_streamers db (if limit > 1000 then 1000 else limit)

/-- `find_matching_tier` (streamer_service.py:152-187): first tier in
list order within `tolerance` of the amount. -/
def find_matching_tier (streamer : Streamer) (amount_usd : ℚ)
    (tolerance : ℚ) : Option DonationTier :=
  streamer.donation_tiers.find? fun tier =>
    |tier.amount_usd - amount_usd| < tolerance

/-- `validate_streamer_active` (streamer_service.py:189-206): every
streamer is active in Phase 1. -/
def validate_streamer_active (_ : Streamer) : Bool × Option String :=
  (true, none)

/-- `DonationService.list_donations_for_streamer`
(donation_service.py:152-169): clamp the limit to 1000 before
delegating. -/
def list_donations_for_streamer (db : DB) (streamer_id : String)
    (limit : Nat) : List DonationMessage :=
  DonationDB.list_donations_by_streamer db streamer_id
    (if limit > 1000 then 1000 else limit)

/-! ## `validate_wallet_address` (validation_service.py:31-52)

The service delegates to the external `Web3.is_address`, which is
`eth_utils.address.is_address`: a string is an address when it is an
optionally `0x`/`0X`-prefixed 40-hex-digit string and, if its hex
digits mix upper- and lowercase letters, it passes the EIP-55 checksum
(recomputed with Keccak-256 over the lowercased unprefixed address).
The library is embedded here in full, including Keccak-256. -/

/-- All 64-bit lanes keep their value below `2 ^ 64`. -/
def mask64 : Nat := 2 ^ 64 - 1

/-- 64-bit left rotation. -/
def rotl64 (n k : Nat) : Nat :=
  ((n <<< k) ||| (n >>> (64 - k))) &&& mask64

/-- Keccak round constants. -/
def keccakRC : List Nat :=
  [1, 32898, 9223372036854808714,
   9223372039002292224, 32907, 2147483649,
   9223372039002292353, 9223372036854808585, 138,
   136, 2147516425, 2147483658,
   2147516555, 9223372036854775947, 9223372036854808713,
   9223372036854808579, 9223372036854808578, 9223372036854775936,
   32778, 9223372039002259466, 9223372039002292353,
   9223372036854808704, 2147483649, 9223372039002292232]

/-- Rho-step rotation offsets, indexed by lane `x + 5 * y` and computed
by the FIPS 202 rule: starting from lane (1, 0), step t writes offset
`(t+1)(t+2)/2 mod 64` and moves to `(y, (2x+3y) mod 5)`. -/
def rhoOff : List Nat :=
  ((List.range 24).foldl
    (fun st t =>
      let x := st.2.1
      let y := st.2.2
      (st.1.set (x + 5 * y) ((t + 1) * (t + 2) / 2 % 64), y, (2 * x + 3 * y) % 5))
    (List.replicate 25 0, 1, 0)).1

/-- Lane accessor for the 25-lane state `A[x + 5 * y]`. -/
def lane (A : List Nat) (i : Nat) : Nat := A.getD i 0

/-- Keccak theta step. -/
def keccakTheta (A : List Nat) : List Nat :=
  let C := (List.range 5).map fun x =>
    lane A x ^^^ lane A (x + 5) ^^^ lane A (x + 10) ^^^
      lane A (x + 15) ^^^ lane A (x + 20)
  let D := (List.range 5).map fun x =>
    lane C ((x + 4) % 5) ^^^ rotl64 (lane C ((x + 1) % 5)) 1
  (List.range 25).map fun i => lane A i ^^^ lane D (i % 5)

/-- Keccak rho and pi steps: `B[y, 2x+3y] = rotl(A[x, y], r[x, y])`. -/
def keccakRhoPi (A : List Nat) : List Nat :=
  (List.range 25).foldl
    (fun B i =>
      let x := i % 5
      let y := i / 5
      B.set (y + 5 * ((2 * x + 3 * y) % 5)) (rotl64 (lane A i) (rhoOff.getD i 0)))
    (List.replicate 25 0)

/-- Keccak chi step. -/
def keccakChi (A : List Nat) : List Nat :=
  (List.range 25).map fun i =>
    let x := i % 5
    let y := i / 5
    lane A i ^^^
      ((lane A ((x + 1) % 5 + 5 * y) ^^^ mask64) &&& lane A ((x + 2) % 5 + 5 * y))

/-- One Keccak-f round followed by the iota constant addition. -/
def keccakRound (A : List Nat) (rc : Nat) : List Nat :=
  let c := keccakChi (keccakRhoPi (keccakTheta A))
  c.set 0 (lane c 0 ^^^ rc)

/-- The Keccak-f[1600] permutation: 24 rounds. -/
def keccakF (A : List Nat) : List Nat := keccakRC.foldl keccakRound A

/-- Little-endian bytes to a 64-bit lane. -/
def bytesToLane (bs : List Nat) : Nat :=
  bs.foldr (fun b acc => acc <<< 8 ||| b) 0

/-- The 17 rate lanes of a 136-byte block. -/
def blockLanes (block : List Nat) : List Nat :=
  (List.range 17).map fun i => bytesToLane ((block.drop (8 * i)).take 8)

/-- Absorb one 136-byte block into the state. -/
def absorbBlock (A : List Nat) (block : List Nat) : List Nat :=
  let L := blockLanes block
  keccakF ((List.range 25).map fun i => lane A i ^^^ lane L i)

/-- Original Keccak multi-rate padding (`0x01 … 0x80`) to a multiple
of the 136-byte rate. -/
def keccakPad (msg : List Nat) : List Nat :=
  let r := 136 - msg.length % 136
  if r = 1 then msg ++ [0x81]
  else msg ++ [0x01] ++ List.replicate (r - 2) 0 ++ [0x80]

/-- Little-endian bytes of one lane. -/
def laneBytes (n : Nat) : List Nat :=
  (List.range 8).map fun j => (n >>> (8 * j)) &&& 0xff

/-- Keccak-256 of a byte sequence (the pre-SHA3 padding variant used
by Ethereum): absorb all padded blocks, squeeze 32 bytes. -/
def keccak256 (msg : List Nat) : List Nat :=
  let padded := keccakPad msg
  let A := (List.range (padded.length / 136)).foldl
    (fun A i => absorbBlock A ((padded.drop (136 * i)).take 136))
    (List.replicate 25 0)
  laneBytes (lane A 0) ++ laneBytes (lane A 1) ++
    laneBytes (lane A 2) ++ laneBytes (lane A 3)

/-- `[0-9a-fA-F]`. -/
def isHexDigitChar (c : Char) : Bool :=
  ('0' ≤ c ∧ c ≤ '9') ∨ ('a' ≤ c ∧ c ≤ 'f') ∨ ('A' ≤ c ∧ c ≤ 'F')

/-- `eth_utils.remove_0x_prefix`: drop a leading `0x` or `0X`. -/
def strip0x (s : String) : String :=
  match s.data with
  | '0' :: 'x' :: rest => ⟨rest⟩
  | '0' :: 'X' :: rest => ⟨rest⟩
  | _ => s

/-- `eth_utils.is_hex` on text: full match of `(0[xX])?[0-9a-fA-F]*`. -/
def isHexStr (s : String) : Bool := (strip0x s).data.all isHexDigitChar

/-- `eth_utils.is_hex_address`: hex string of 40 unprefixed digits. -/
def isHexAddr (s : String) : Bool :=
  isHexStr s && (strip0x s).data.length == 40

/-- Nibble `i` of the hex expansion of a byte sequence (high nibble
first within a byte), as read by `int(address_hash[i], 16)`. -/
def hashNibble (h : List Nat) (i : Nat) : Nat :=
  let b := h.getD (i / 2) 0
  if i % 2 = 0 then b / 16 else b % 16

/-- `eth_utils.to_checksum_address`: lowercase the unprefixed address,
hash it with Keccak-256, and uppercase exactly the hex letters whose
hash nibble exceeds 7. -/
def toChecksumAddress (s : String) : String :=
  let norm := (asciiLower (strip0x s)).data
  let h := keccak256 (norm.map Char.toNat)
  ⟨'0' :: 'x' :: (norm.enum.map fun e =>
      if hashNibble h e.1 > 7 then asciiUpperChar e.2 else e.2)⟩

/-- `eth_utils.is_checksum_address`. -/
def isChecksumAddress (s : String) : Bool :=
  isHexAddr s && s == toChecksumAddress s

/-- `eth_utils.is_checksum_formatted_address`: a hex address whose
unprefixed digits are neither all-lowercase nor all-uppercase. -/
def isChecksumFormatted (s : String) : Bool :=
  isHexAddr s && strip0x s != asciiLower (strip0x s) &&
    strip0x s != asciiUpper (strip0x s)

/-- `eth_utils.address.is_address`, the body of `Web3.is_address`. -/
def isAddress (s : String) : Bool :=
  isHexAddr s && (!(isChecksumFormatted s) || isChecksumAddress s)

/-- `validate_wallet_address` (validation_service.py:31-52): the
`try`/`except` wrapper makes it total; `Web3.is_address` is total on
strings already. -/
def validate_wallet_address (address : String) : Bool :=
  isAddress address

/-! ## Theorems: codec round-trip -/

theorem Platform.ofValue_value (p : Platform) : Platform.ofValue p.value = some p := by
  cases p <;> rfl

theorem decodePlatforms_map_value (ps : List Platform) :
    decodePlatforms (ps.map Platform.value) = some ps := by
  induction ps with
  | nil => rfl
  | cons p ps ih =>
      simp [decodePlatforms, Platform.ofValue_value, ih]

theorem decodeStreamer_encodeStreamer (s : Streamer) :
    decodeStreamer (encodeStreamer s) = some s := by
  unfold decodeStreamer encodeStreamer
  rw [decodePlatforms_map_value]
  simp only [List.map_map]
  have h : ∀ l : List DonationTier,
      l.map ((fun t : TierRecord =>
          ({ amount_usd := t.amount_usd, popup_message := t.popup_message,
             duration_ms := t.duration_ms } : DonationTier)) ∘
        fun t : DonationTier =>
          ({ amount_usd := t.amount_usd, popup_message := t.popup_message,
             duration_ms := t.duration_ms } : TierRecord)) = l := by
    intro l
    induction l with
    | nil => rfl
    | cons t ts ih => simp [ih]
  rw [h]

theorem decodeDonation_encodeDonation (d : DonationMessage) :
    decodeDonation (encodeDonation d) = d := rfl

theorem dbGet_dbInsert (db : DB) (key : String) (v : DBVal) :
    dbGet (dbInsert db key v) key = some v := by
  induction db with
  | nil => simp [dbInsert, dbGet]
  | cons e rest ih =>
      obtain ⟨k, w⟩ := e
      by_cases hk : key = k
      · simp [dbInsert, hk, dbGet]
      · by_cases hlt : keyLt key.data k.data
        · simp [dbInsert, hk, hlt, dbGet]
        · simp [dbInsert, hk, hlt, dbGet, Ne.symm hk, ih]

/-! ## Order theory for keys -/

theorem keyLt_irrefl (l : List Char) : keyLt l l = false := by
  induction l with
  | nil => rfl
  | cons c cs ih => simp [keyLt, ih]

theorem keyLt_trans : ∀ a b c : List Char,
    keyLt a b = true → keyLt b c = true → keyLt a c = true := by
  intro a
  induction a with
  | nil =>
      intro b c hab hbc
      cases c with
      | nil =>
          cases b with
          | nil => exact hab
          | cons y ys => simp [keyLt] at hbc
      | cons z zs => rfl
  | cons x xs ih =>
      intro b c hab hbc
      cases b with
      | nil => simp [keyLt] at hab
      | cons y ys =>
          cases c with
          | nil => simp [keyLt] at hbc
          | cons z zs =>
              simp only [keyLt] at hab hbc ⊢
              by_cases hxy : x < y
              · by_cases hyz : y < z
                · simp [lt_trans hxy hyz]
                · by_cases hzy : z < y
                  · rw [if_neg hyz, if_pos hzy] at hbc
                    exact absurd hbc (by simp)
                  · have : y = z := le_antisymm (not_lt.mp hzy) (not_lt.mp hyz)
                    subst this
                    simp [hxy]
              · by_cases hyx : y < x
                · simp [hxy, hyx] at hab
                · have hxyeq : x = y := le_antisymm (not_lt.mp hyx) (not_lt.mp hxy)
                  subst hxyeq
                  simp [hxy] at hab
                  by_cases hyz : x < z
                  · simp [hyz]
                  · by_cases hzy : z < x
                    · simp [hyz, hzy] at hbc
                    · have : x = z := le_antisymm (not_lt.mp hzy) (not_lt.mp hyz)
                      subst this
                      simp [hyz] at hbc ⊢
                      exact ih _ _ hab hbc

theorem keyLt_eq_of_not_lt : ∀ a b : List Char,
    keyLt a b = false → keyLt b a = false → a = b := by
  intro a
  induction a with
  | nil =>
      intro b hab _
      cases b with
      | nil => rfl
      | cons y ys => simp [keyLt] at hab
  | cons x xs ih =>
      intro b hab hba
      cases b with
      | nil => simp [keyLt] at hba
      | cons y ys =>
          simp only [keyLt] at hab hba
          by_cases hxy : x < y
          · simp [hxy] at hab
          · by_cases hyx : y < x
            · simp [hyx] at hba
            · have hxyeq : x = y := le_antisymm (not_lt.mp hyx) (not_lt.mp hxy)
              subst hxyeq
              simp [hxy] at hab hba
              rw [ih ys hab hba]

theorem keyLt_false_of_isPrefixOf : ∀ p k : List Char,
    p.isPrefixOf k = true → keyLt k p = false := by
  intro p
  induction p with
  | nil =>
      intro k _
      cases k <;> rfl
  | cons a as ih =>
      intro k hpre
      cases k with
      | nil => simp [List.isPrefixOf] at hpre
      | cons b bs =>
          simp only [List.isPrefixOf, Bool.and_eq_true, beq_iff_eq] at hpre
          obtain ⟨hab, hpre⟩ := hpre
          subst hab
          simp [keyLt, ih bs hpre]

theorem isPrefixOf_of_between : ∀ p x y : List Char,
    p.isPrefixOf y = true → keyLt x y = true → keyLt x p = false →
    p.isPrefixOf x = true := by
  intro p
  induction p with
  | nil => intro x y _ _ _; cases x <;> rfl
  | cons a as ih =>
      intro x y hpre hxy hxp
      cases y with
      | nil => simp [List.isPrefixOf] at hpre
      | cons b bs =>
          simp only [List.isPrefixOf, Bool.and_eq_true, beq_iff_eq] at hpre
          obtain ⟨hab, hpre⟩ := hpre
          subst hab
          cases x with
          | nil => simp [keyLt] at hxp
          | cons c cs =>
              simp only [keyLt] at hxy hxp
              by_cases hca : c < a
              · simp [hca] at hxp
              · by_cases hac : a < c
                · simp [hca, hac] at hxy
                · have : c = a := le_antisymm (not_lt.mp hac) (not_lt.mp hca)
                  subst this
                  simp [hca] at hxy hxp
                  simp only [List.isPrefixOf, Bool.and_eq_true, beq_iff_eq]
                  exact ⟨trivial, ih cs bs hpre hxy hxp⟩

/-! ## Characterizing the prefix scans on a sorted store -/

/-- The records that a whole-prefix scan of the store extracts with
`g`: every entry whose key carries the prefix, in store order. -/
def prefixMatches (p : String) (g : DBVal → Option α) (db : DB) : List α :=
  db.filterMap fun e => if pyStartsWith e.1 p then g e.2 else none

theorem scanKV_eq_take (p : String) (g : DBVal → Option α) :
    ∀ (limit : Nat) (l : List (String × DBVal)),
    scanKV p g limit l =
      ((l.takeWhile fun e => pyStartsWith e.1 p).filterMap fun e => g e.2).take
        limit := by
  intro limit l
  induction l generalizing limit with
  | nil => simp [scanKV]
  | cons e rest ih =>
      obtain ⟨k, v⟩ := e
      by_cases hp : pyStartsWith k p = true
      · rcases Nat.eq_zero_or_pos limit with hl | hl
        · subst hl
          simp [scanKV, hp, List.takeWhile_cons, List.take]
        · obtain ⟨n, rfl⟩ : ∃ n, limit = n + 1 :=
            ⟨limit - 1, (Nat.succ_pred_eq_of_pos hl).symm⟩
          cases hg : g v with
          | some a =>
              simp [scanKV, hp, hg, List.takeWhile_cons, ih]
          | none =>
              simp [scanKV, hp, hg, List.takeWhile_cons, ih]
      · simp [scanKV, hp, List.takeWhile_cons]

theorem dropWhile_all_not_lt (p : String) :
    ∀ l : List (String × DBVal), DBSorted l →
    ∀ x ∈ l.dropWhile (fun e => keyLt e.1.data p.data),
      keyLt x.1.data p.data = false := by
  intro l
  induction l with
  | nil => intro _ x hx; simp [List.dropWhile] at hx
  | cons e rest ih =>
      intro hs x hx
      obtain ⟨he, hrest⟩ := List.pairwise_cons.mp hs
      by_cases hq : keyLt e.1.data p.data = true
      · simp only [List.dropWhile_cons, hq, if_true] at hx
        exact ih hrest x hx
      · have hq' : keyLt e.1.data p.data = false := eq_false_of_ne_true hq
        simp only [List.dropWhile_cons, hq', if_false, Bool.false_eq_true] at hx
        rcases List.mem_cons.mp hx with rfl | hx
        · exact hq'
        · cases hb : keyLt x.1.data p.data with
          | false => rfl
          | true => exact absurd (keyLt_trans _ _ _ (he x hx) hb) hq

theorem dropWhile_not_startsWith (p : String) :
    ∀ l : List (String × DBVal), DBSorted l →
    (∀ x ∈ l, keyLt x.1.data p.data = false) →
    ∀ x ∈ l.dropWhile (fun e => pyStartsWith e.1 p),
      pyStartsWith x.1 p = false := by
  intro l
  induction l with
  | nil => intro _ _ x hx; simp [List.dropWhile] at hx
  | cons e rest ih =>
      intro hs hge x hx
      obtain ⟨he, hrest⟩ := List.pairwise_cons.mp hs
      by_cases hp : pyStartsWith e.1 p = true
      · simp only [List.dropWhile_cons, hp, if_true] at hx
        exact ih hrest (fun y hy => hge y (List.mem_cons_of_mem _ hy)) x hx
      · have hp' : pyStartsWith e.1 p = false := eq_false_of_ne_true hp
        simp only [List.dropWhile_cons, hp', if_false, Bool.false_eq_true] at hx
        rcases List.mem_cons.mp hx with rfl | hx
        · exact hp'
        · cases hb : pyStartsWith x.1 p with
          | false => rfl
          | true =>
              exact absurd (isPrefixOf_of_between p.data e.1.data x.1.data hb
                (he x hx) (hge e (List.mem_cons_self e rest))) hp

theorem filterMap_guard_of_all {α : Type _} (p : String) (g : DBVal → Option α) :
    ∀ l : List (String × DBVal), (∀ x ∈ l, pyStartsWith x.1 p = true) →
    (l.filterMap fun e => if pyStartsWith e.1 p then g e.2 else none) =
      l.filterMap fun e => g e.2 := by
  intro l
  induction l with
  | nil => intro _; rfl
  | cons e rest ih =>
      intro hall
      have he := hall e (List.mem_cons_self e rest)
      have hrest := fun y hy => hall y (List.mem_cons_of_mem _ hy)
      simp only [List.filterMap_cons, he, if_true, ih hrest]

theorem prefixMatches_eq_region {α : Type _} (p : String) (g : DBVal → Option α)
    (db : DB) (hs : DBSorted db) :
    (((dbItemsFrom db p).takeWhile fun e => pyStartsWith e.1 p).filterMap
        fun e => g e.2) = prefixMatches p g db := by
  classical
  have hdropsorted : DBSorted (db.dropWhile fun e => keyLt e.1.data p.data) :=
    List.Pairwise.sublist (List.dropWhile_sublist _) hs
  have hge : ∀ x ∈ db.dropWhile (fun e => keyLt e.1.data p.data),
      keyLt x.1.data p.data = false :=
    dropWhile_all_not_lt p db hs
  -- the part of the store before the prefix region contributes nothing
  have hpre : ((db.takeWhile fun e => keyLt e.1.data p.data).filterMap
      fun e => if pyStartsWith e.1 p then g e.2 else none) = [] := by
    rw [List.filterMap_eq_nil_iff]
    intro x hx
    have hqx : keyLt x.1.data p.data = true := by
      simpa using List.mem_takeWhile_imp hx
    cases hb : pyStartsWith x.1 p with
    | false => simp [hb]
    | true =>
        rw [keyLt_false_of_isPrefixOf p.data x.1.data hb] at hqx
        exact absurd hqx (by simp)
  -- the part of the store after the prefix region contributes nothing
  have hpost : (((db.dropWhile fun e => keyLt e.1.data p.data).dropWhile
      fun e => pyStartsWith e.1 p).filterMap
        fun e => if pyStartsWith e.1 p then g e.2 else none) = [] := by
    rw [List.filterMap_eq_nil_iff]
    intro x hx
    have hb := dropWhile_not_startsWith p _ hdropsorted hge x hx
    simp [hb]
  have hmid : (((db.dropWhile fun e => keyLt e.1.data p.data).takeWhile
      fun e => pyStartsWith e.1 p).filterMap
        fun e => if pyStartsWith e.1 p then g e.2 else none) =
      (((db.dropWhile fun e => keyLt e.1.data p.data).takeWhile
        fun e => pyStartsWith e.1 p).filterMap fun e => g e.2) :=
    filterMap_guard_of_all p g _ fun x hx => by
      simpa using List.mem_takeWhile_imp hx
  calc ((dbItemsFrom db p).takeWhile fun e => pyStartsWith e.1 p).filterMap
        (fun e => g e.2)
      = (((db.dropWhile fun e => keyLt e.1.data p.data).takeWhile
          fun e => pyStartsWith e.1 p).filterMap
            fun e => if pyStartsWith e.1 p then g e.2 else none) := hmid.symm
    _ = (((db.dropWhile fun e => keyLt e.1.data p.data).takeWhile
          fun e => pyStartsWith e.1 p).filterMap
            fun e => if pyStartsWith e.1 p then g e.2 else none) ++
        (((db.dropWhile fun e => keyLt e.1.data p.data).dropWhile
          fun e => pyStartsWith e.1 p).filterMap
            fun e => if pyStartsWith e.1 p then g e.2 else none) := by
          rw [hpost, List.append_nil]
    _ = ((db.dropWhile fun e => keyLt e.1.data p.data).filterMap
            fun e => if pyStartsWith e.1 p then g e.2 else none) := by
          rw [← List.filterMap_append, List.takeWhile_append_dropWhile]
    _ = ((db.takeWhile fun e => keyLt e.1.data p.data).filterMap
            fun e => if pyStartsWith e.1 p then g e.2 else none) ++
        ((db.dropWhile fun e => keyLt e.1.data p.data).filterMap
            fun e => if pyStartsWith e.1 p then g e.2 else none) := by
          rw [hpre, List.nil_append]
    _ = db.filterMap fun e => if pyStartsWith e.1 p then g e.2 else none := by
          rw [← List.filterMap_append, List.takeWhile_append_dropWhile]
    _ = prefixMatches p g db := rfl

theorem scanKV_sorted {α : Type _} (p : String) (g : DBVal → Option α)
    (limit : Nat) (db : DB) (hs : DBSorted db) :
    scanKV p g limit (dbItemsFrom db p) = (prefixMatches p g db).take limit := by
  rw [scanKV_eq_take, prefixMatches_eq_region p g db hs]

/-! ## Claim theorems -/

/-- C8: for every streamer and donation value, writing it with
`put_streamer` / `put_donation` and reading it back with
`get_streamer` / `get_donation` returns exactly the original value —
optional fields absent round-trip to absent and platform enum values
round-trip to the same enum values, since the theorem quantifies over
all values of the DTO types. -/
theorem claim_C8_codec_roundtrip (db : DB) (s : Streamer) (d : DonationMessage) :
    DonationDB.get_streamer (DonationDB.put_streamer db s) s.id =
      .ok (some s) ∧
    DonationDB.get_donation (DonationDB.put_donation db d) d.donation_id =
      .ok (some d) := by
  constructor
  · unfold DonationDB.get_streamer DonationDB.put_streamer
    rw [dbGet_dbInsert]
    simp [decodeStreamer_encodeStreamer]
  · unfold DonationDB.get_donation DonationDB.put_donation
    rw [dbGet_dbInsert]
    simp [decodeDonation_encodeDonation]

/-! ## Sorting lemmas -/

theorem insertByTs_perm (d : DonationMessage) :
    ∀ l : List DonationMessage, (insertByTs d l).Perm (d :: l) := by
  intro l
  induction l with
  | nil => simp [insertByTs]
  | cons x xs ih =>
      by_cases h : d.timestamp < x.timestamp
      · simp only [insertByTs, h, if_true]
        exact (ih.cons x).trans (List.Perm.swap d x xs)
      · simp [insertByTs, h]

theorem sortByTsDesc_perm :
    ∀ l : List DonationMessage, (sortByTsDesc l).Perm l := by
  intro l
  induction l with
  | nil => simp [sortByTsDesc]
  | cons d ds ih =>
      exact (insertByTs_perm d (sortByTsDesc ds)).trans (ih.cons d)

theorem mem_insertAsc (q y : ℚ) :
    ∀ l : List ℚ, y ∈ insertAsc q l ↔ y = q ∨ y ∈ l := by
  intro l
  induction l with
  | nil => simp [insertAsc]
  | cons x xs ih =>
      by_cases h : x ≤ q
      · simp only [insertAsc, h, if_true, List.mem_cons, ih]
        tauto
      · simp [insertAsc, h, List.mem_cons]

theorem pairwise_le_insertAsc (q : ℚ) :
    ∀ l : List ℚ, l.Pairwise (· ≤ ·) → (insertAsc q l).Pairwise (· ≤ ·) := by
  intro l
  induction l with
  | nil => intro _; simp [insertAsc]
  | cons x xs ih =>
      intro hp
      obtain ⟨hx, hxs⟩ := List.pairwise_cons.mp hp
      by_cases h : x ≤ q
      · simp only [insertAsc, h, if_true]
        refine List.pairwise_cons.mpr ⟨?_, ih hxs⟩
        intro y hy
        rcases (mem_insertAsc q y xs).mp hy with rfl | hy
        · exact h
        · exact hx y hy
      · simp only [insertAsc, h, if_false]
        refine List.pairwise_cons.mpr ⟨?_, hp⟩
        intro y hy
        have hq : q ≤ x := le_of_lt (lt_of_not_le h)
        rcases List.mem_cons.mp hy with rfl | hy
        · exact hq
        · exact hq.trans (hx y hy)

theorem pairwise_le_sortAsc : ∀ l : List ℚ, (sortAsc l).Pairwise (· ≤ ·) := by
  intro l
  induction l with
  | nil => simp [sortAsc]
  | cons q qs ih => exact pairwise_le_insertAsc q (sortAsc qs) ih

/-- C9: through the service, listing returns the decodable streamer
records of the `streamers:` prefix in key scan order, truncated to the
requested limit clamped at 1000; corrupted records are skipped and the
cap counts only successfully decoded records, which is exactly
`take (min limit 1000)` of the decodable records. -/
theorem claim_C9_list_streamers_clamped (db : DB) (limit : Nat)
    (hs : DBSorted db) :
    service_list_streamers db limit =
      (prefixMatches "streamers:" streamerOfVal db).take (min limit 1000) ∧
    (service_list_streamers db limit).length =
      min (min limit 1000) (prefixMatches "streamers:" streamerOfVal db).length := by
  have h : service_list_streamers db limit =
      (prefixMatches "streamers:" streamerOfVal db).take (min limit 1000) := by
    unfold service_list_streamers DonationDB.list_streamers
    rw [scanKV_sorted _ _ _ db hs]
    congr 1
    split_ifs with h1000 <;> omega
  refine ⟨h, ?_⟩
  rw [h, List.length_take]

/-- Decodable streamer record used in concrete stores. -/
def exSR (i : String) : StreamerRecord :=
  { id := i, name := "n", wallet_address := "0xABCD", platforms := []
    avatar_url := none, donation_tiers := [], thank_you_message := "t" }

/-- Five decodable streamer records and one corrupted value. -/
def exDB9 : DB :=
  [("streamers:a", .streamerVal (exSR "a")),
   ("streamers:b", .corrupt),
   ("streamers:c", .streamerVal (exSR "c")),
   ("streamers:d", .streamerVal (exSR "d")),
   ("streamers:e", .streamerVal (exSR "e")),
   ("streamers:f", .streamerVal (exSR "f"))]

theorem claim_C9_witness :
    (service_list_streamers exDB9 5000).length = 5 ∧
    (service_list_streamers exDB9 3).length = 3 ∧
    (service_list_streamers exDB9 3).map (fun s => s.id) = ["a", "c", "d"] := by
  have h1 := claim_C9_list_streamers_clamped exDB9 5000 (by decide)
  have h2 := claim_C9_list_streamers_clamped exDB9 3 (by decide)
  refine ⟨?_, ?_, ?_⟩
  · rw [h1.2]; decide
  · rw [h2.2]; decide
  · rw [h2.1]; rfl

/-- The full set of a streamer's donations present in the store, in key
scan order: every decodable record under the `donations:` prefix whose
`streamer_id` matches. -/
def donationMatches (db : DB) (sid : String) : List DonationMessage :=
  prefixMatches "donations:" (donationOfVal sid) db

/-- C7: whenever the streamer's donations fit under the internal 10000
cap, `get_donation_stats` returns the arithmetic sum of their
`amount_usd`, their count, and the number of distinct donor addresses
compared case-insensitively. -/
theorem claim_C7_stats (db : DB) (sid : String) (hs : DBSorted db)
    (hc : (donationMatches db sid).length ≤ 10000) :
    DonationDB.get_donation_stats db sid =
      (((donationMatches db sid).map fun d => d.amount_usd).sum,
       (donationMatches db sid).length,
       (((donationMatches db sid).map fun d =>
            asciiLower d.donor_address).dedup).length) := by
  unfold donationMatches at hc
  unfold DonationDB.get_donation_stats DonationDB.list_donations_by_streamer
      donationMatches
  rw [scanKV_sorted _ _ _ db hs, List.take_of_length_le hc]
  have hperm := sortByTsDesc_perm (prefixMatches "donations:" (donationOfVal sid) db)
  refine congrArg₂ Prod.mk ?_ (congrArg₂ Prod.mk ?_ ?_)
  · exact (hperm.map fun d => d.amount_usd).sum_eq
  · exact hperm.length_eq
  · exact ((hperm.map fun d => asciiLower d.donor_address).dedup).length_eq

/-- Donation record used in concrete stores. -/
def exDR (did sid addr : String) (amt : ℚ) (ts : Int) : DonationRecord :=
  { donation_id := did, streamer_id := sid, amount_usd := amt
    donor_address := addr, tx_hash := "0xt", timestamp := ts
    message := none, clip_url := none }

/-- Four donations for one streamer, amounts `[1, 5, 10, 5]`, from two
distinct addresses written in different letter cases. -/
def exDB7 : DB :=
  [("donations:a", .donationVal (exDR "a" "s1" "0xAbCd" 1 10)),
   ("donations:b", .donationVal (exDR "b" "s1" "0xabcd" 5 20)),
   ("donations:c", .donationVal (exDR "c" "s1" "0xEEEE" 10 30)),
   ("donations:d", .donationVal (exDR "d" "s1" "0xeeee" 5 40))]

theorem claim_C7_witness :
    DonationDB.get_donation_stats exDB7 "s1" = (21, 4, 2) ∧
    DonationDB.get_donation_stats [] "unknown" = (0, 0, 0) := by
  have h1 := claim_C7_stats exDB7 "s1" (by decide) (by decide)
  have h2 := claim_C7_stats [] "unknown" (by decide) (by decide)
  refine ⟨?_, ?_⟩
  · rw [h1]
    refine congrArg₂ Prod.mk ?_ (congrArg₂ Prod.mk ?_ ?_)
    · have he : (donationMatches exDB7 "s1").map (fun d => d.amount_usd) =
          [1, 5, 10, 5] := rfl
      rw [he]
      norm_num
    · rfl
    · rfl
  · rw [h2]
    rfl

/-- Three donations for streamer `s1` whose key scan order carries
timestamps `[100, 300, 200]`. -/
def exDB1 : DB :=
  [("donations:a", .donationVal (exDR "a" "s1" "0xd" 1 100)),
   ("donations:b", .donationVal (exDR "b" "s1" "0xd" 1 300)),
   ("donations:c", .donationVal (exDR "c" "s1" "0xd" 1 200))]

/-- C1 (refuting the truncate-after-sort contract): with the three
donations of `exDB1` and `limit = 1`, the code stops the scan after
the first matching record and returns the oldest donation
(timestamp 100), whereas scanning the whole `donations:` prefix,
sorting by timestamp descending and only then truncating yields the
newest (timestamp 300); with a limit that covers all matches the code
does produce `[300, 200, 100]`. -/
theorem claim_C1_truncation_precedes_sort :
    (DonationDB.list_donations_by_streamer exDB1 "s1" 1).map
        (fun d => d.timestamp) = [100] ∧
    ((sortByTsDesc (prefixMatches "donations:" (donationOfVal "s1") exDB1)).take
        1).map (fun d => d.timestamp) = [300] ∧
    (DonationDB.list_donations_by_streamer exDB1 "s1" 100).map
        (fun d => d.timestamp) = [300, 200, 100] := by
  refine ⟨rfl, rfl, rfl⟩

/-- A streamer record holding wallet `0xABCD`. -/
def exSR2 : StreamerRecord :=
  { id := "s1", name := "n", wallet_address := "0xABCD", platforms := []
    avatar_url := none, donation_tiers := [], thank_you_message := "t" }

/-- A store holding one donation and one streamer; donation keys sort
before streamer keys. -/
def exDB2 : DB :=
  [("donations:d1", .donationVal (exDR "d1" "s1" "0xd" 1 100)),
   ("streamers:s1", .streamerVal exSR2)]

/-- C2 (refuting wallet lookup independence from other entity kinds):
the store `exDB2` is sorted and holds a streamer whose wallet matches
the query up to ASCII case, yet `get_streamer_by_wallet` returns
`none`, because its iterator starts at the first key of the store — a
`donations:` key — and the loop breaks at the first key outside the
`streamers:` prefix; the same query on the store without the donation
finds the streamer. -/
theorem claim_C2_wallet_scan_blocked_by_donations :
    DBSorted exDB2 ∧
    dbGet exDB2 "streamers:s1" = some (.streamerVal exSR2) ∧
    asciiLower exSR2.wallet_address = asciiLower "0xabcd" ∧
    DonationDB.get_streamer_by_wallet exDB2 "0xabcd" = none ∧
    (DonationDB.get_streamer_by_wallet [("streamers:s1", .streamerVal exSR2)]
        "0xabcd").isSome = true := by
  refine ⟨by decide, rfl, rfl, rfl, rfl⟩

/-- C10: `delete_streamer` deletes and returns `True` exactly when the
stored value at `streamers:<id>` is truthy (a non-empty byte string);
when the key is present but holds an empty value, or is absent, it
returns `False` and leaves the store unchanged — existence is decided
by value truthiness, not key presence. -/
theorem claim_C10_delete_by_truthiness (db : DB) (streamer_id : String) :
    ((DonationDB.delete_streamer db streamer_id).2 = true ↔
      ∃ v, dbGet db ("streamers:" ++ streamer_id) = some v ∧ v.truthy = true) ∧
    ((DonationDB.delete_streamer db streamer_id).2 = true →
      (DonationDB.delete_streamer db streamer_id).1 =
        dbDelete db ("streamers:" ++ streamer_id)) ∧
    ((DonationDB.delete_streamer db streamer_id).2 = false →
      (DonationDB.delete_streamer db streamer_id).1 = db) := by
  unfold DonationDB.delete_streamer
  cases hv : dbGet db ("streamers:" ++ streamer_id) with
  | none => simp [hv]
  | some v =>
      cases htv : v.truthy with
      | true => simp [hv, htv]
      | false => simp [hv, htv]

/-- A store whose only key holds the empty byte string. -/
def exDB10 : DB := [("streamers:s1", DBVal.empty)]

theorem claim_C10_witness :
    dbGet exDB10 ("streamers:" ++ "s1") = some DBVal.empty ∧
    (DonationDB.delete_streamer exDB10 "s1").2 = false ∧
    (DonationDB.delete_streamer exDB10 "s1").1 = exDB10 := by
  refine ⟨rfl, rfl, (claim_C10_delete_by_truthiness exDB10 "s1").2.2 rfl⟩

/-! ## Tier matching (C4) -/

/-- Index of the first tier amount within `tolerance` of the donation
amount, stated as the specification reads: scan in list order, return
the first index whose absolute difference is strictly below the
tolerance. -/
def firstTierIdx (amount_usd tolerance : ℚ) : List ℚ → Option Nat
  | [] => none
  | t :: ts =>
      if |t - amount_usd| < tolerance then some 0
      else (firstTierIdx amount_usd tolerance ts).map (· + 1)

theorem tierMatchLoop_eq (amount_usd tolerance : ℚ) :
    ∀ (l : List ℚ) (idx : Nat),
    tierMatchLoop amount_usd tolerance idx l =
      match firstTierIdx amount_usd tolerance l with
      | some i => (true, some (idx + i))
      | none => (false, none) := by
  intro l
  induction l with
  | nil => intro idx; rfl
  | cons t ts ih =>
      intro idx
      by_cases h : |t - amount_usd| < tolerance
      · simp [tierMatchLoop, firstTierIdx, h]
      · simp only [tierMatchLoop, firstTierIdx, h, if_false, ih (idx + 1)]
        cases hf : firstTierIdx amount_usd tolerance ts with
        | none => simp
        | some i =>
            have : idx + 1 + i = idx + (i + 1) := by omega
            simp [this]

theorem firstTierIdx_spec (amount_usd tolerance : ℚ) :
    ∀ (l : List ℚ) (i : Nat),
    firstTierIdx amount_usd tolerance l = some i ↔
      ((∃ t, l[i]? = some t ∧ |t - amount_usd| < tolerance) ∧
        ∀ j, j < i → ∀ t, l[j]? = some t → ¬(|t - amount_usd| < tolerance)) := by
  intro l
  induction l with
  | nil =>
      intro i
      simp [firstTierIdx]
  | cons t ts ih =>
      intro i
      by_cases h : |t - amount_usd| < tolerance
      · simp only [firstTierIdx, h, if_true]
        constructor
        · intro hi
          obtain rfl : i = 0 := by
            have := Option.some.inj hi; omega
          exact ⟨⟨t, by simp, h⟩, fun j hj => absurd hj (Nat.not_lt_zero j)⟩
        · intro ⟨_, hall⟩
          cases i with
          | zero => rfl
          | succ k => exact absurd h (hall 0 (Nat.succ_pos k) t (by simp))
      · simp only [firstTierIdx, h, if_false]
        cases i with
        | zero =>
            simp only [Option.map_eq_some']
            constructor
            · intro ⟨k, _, hk⟩; omega
            · intro ⟨⟨t', ht', hc⟩, _⟩
              rw [List.getElem?_cons_zero] at ht'
              exact absurd (Option.some.inj ht' ▸ hc) h
        | succ k =>
            simp only [Option.map_eq_some']
            constructor
            · intro ⟨m, hm, hmk⟩
              obtain rfl : m = k := by omega
              obtain ⟨⟨t', ht', hc⟩, hall⟩ := (ih m).mp hm
              refine ⟨⟨t', by simpa using ht', hc⟩, ?_⟩
              intro j hj t'' ht''
              cases j with
              | zero =>
                  rw [List.getElem?_cons_zero] at ht''
                  exact Option.some.inj ht'' ▸ h
              | succ m' =>
                  rw [List.getElem?_cons_succ] at ht''
                  exact hall m' (by omega) t'' ht''
            · intro ⟨⟨t', ht', hc⟩, hall⟩
              rw [List.getElem?_cons_succ] at ht'
              refine ⟨k, (ih k).mpr ⟨⟨t', ht', hc⟩, ?_⟩, rfl⟩
              intro j hj t'' ht''
              exact hall (j + 1) (by omega) t''
                (by rw [List.getElem?_cons_succ]; exact ht'')

/-- Streamer with tiers priced `[1, 5, 10]`. -/
def exStreamer4 : Streamer :=
  { id := "s", name := "n", wallet_address := "0xW", platforms := []
    donation_tiers :=
      [{ amount_usd := 1, popup_message := "t1", duration_ms := 3000 },
       { amount_usd := 5, popup_message := "t5", duration_ms := 5000 },
       { amount_usd := 10, popup_message := "t10", duration_ms := 7000 }]
    thank_you_message := "t", avatar_url := none }

/-- C4: tier matching scans in list order and returns the index of the
first tier within the (strict) tolerance, signalling no-match
otherwise — `validate_donation_tier_match` equals the first-index
specification, whose defining property is stated as the second
conjunct — together with the spec's worked examples for tolerance 0.01
and 0.1, for both the validation service and `find_matching_tier`. -/
theorem claim_C4_tier_matching :
    (∀ (amount_usd tolerance : ℚ) (tier_amounts : List ℚ),
      validate_donation_tier_match amount_usd tier_amounts tolerance =
        match firstTierIdx amount_usd tolerance tier_amounts with
        | some i => (true, some i)
        | none => (false, none)) ∧
    (∀ (amount_usd tolerance : ℚ) (tier_amounts : List ℚ) (i : Nat),
      firstTierIdx amount_usd tolerance tier_amounts = some i ↔
        ((∃ t, tier_amounts[i]? = some t ∧ |t - amount_usd| < tolerance) ∧
          ∀ j, j < i → ∀ t, tier_amounts[j]? = some t →
            ¬(|t - amount_usd| < tolerance))) ∧
    validate_donation_tier_match 5 [1, 5, 10] (1/100) = (true, some 1) ∧
    validate_donation_tier_match (5009/1000) [1, 5, 10] (1/100) = (true, some 1) ∧
    validate_donation_tier_match (505/100) [1, 5, 10] (1/100) = (false, none) ∧
    validate_donation_tier_match (505/100) [1, 5, 10] (1/10) = (true, some 1) ∧
    validate_donation_tier_match (15/2) [1, 5, 10] (1/100) = (false, none) ∧
    find_matching_tier exStreamer4 5 (1/100) =
      some { amount_usd := 5, popup_message := "t5", duration_ms := 5000 } ∧
    find_matching_tier exStreamer4 (505/100) (1/100) = none ∧
    find_matching_tier exStreamer4 (505/100) (1/10) =
      some { amount_usd := 5, popup_message := "t5", duration_ms := 5000 } ∧
    find_matching_tier exStreamer4 (15/2) (1/100) = none := by
  refine ⟨?_, firstTierIdx_spec, ?_, ?_, ?_, ?_, ?_, ?_, ?_, ?_, ?_⟩
  · intro amount_usd tolerance tier_amounts
    unfold validate_donation_tier_match
    rw [tierMatchLoop_eq]
    cases firstTierIdx amount_usd tolerance tier_amounts <;> simp
  · norm_num [validate_donation_tier_match, tierMatchLoop, abs_sub_lt_iff, abs_lt]
  · norm_num [validate_donation_tier_match, tierMatchLoop, abs_sub_lt_iff, abs_lt]
  · norm_num [validate_donation_tier_match, tierMatchLoop, abs_sub_lt_iff, abs_lt]
  · norm_num [validate_donation_tier_match, tierMatchLoop, abs_sub_lt_iff, abs_lt]
  · norm_num [validate_donation_tier_match, tierMatchLoop, abs_sub_lt_iff, abs_lt]
  · norm_num [find_matching_tier, exStreamer4, List.find?, abs_sub_lt_iff, abs_lt]
  · norm_num [find_matching_tier, exStreamer4, List.find?, abs_sub_lt_iff, abs_lt]
  · norm_num [find_matching_tier, exStreamer4, List.find?, abs_sub_lt_iff, abs_lt]
  · norm_num [find_matching_tier, exStreamer4, List.find?, abs_sub_lt_iff, abs_lt]

theorem claim_C4_witness :
    firstTierIdx 5 (1/100) [1, 5, 10] = some 1 ∧
    validate_donation_tier_match 5 [1, 5, 10] (1/100) = (true, some 1) := by
  have h := claim_C4_tier_matching
  refine ⟨?_, h.2.2.1⟩
  refine (h.2.1 5 (1/100) [1, 5, 10] 1).mpr ⟨⟨5, by simp, by norm_num⟩, ?_⟩
  intro j hj t ht
  obtain rfl : j = 0 := by omega
  have : t = 1 := by simpa using ht.symm
  subst this
  norm_num [abs_lt]

/-! ## Streamer creation (C6) -/

theorem pairwise_lt_of_checks (amounts : List ℚ)
    (h1 : amounts.dedup.length = amounts.length)
    (h2 : amounts = sortAsc amounts) :
    amounts.Pairwise (· < ·) := by
  have hnodup : amounts.Nodup :=
    List.dedup_eq_self.mp
      (List.Sublist.eq_of_length (List.dedup_sublist amounts) h1)
  have hle : amounts.Pairwise (· ≤ ·) := by
    rw [h2]
    exact pairwise_le_sortAsc amounts
  exact (List.pairwise_and_iff.mpr ⟨hle, hnodup⟩).imp fun h =>
    lt_of_le_of_ne h.1 h.2

/-- Tier configuration dicts with the given amounts. -/
def tin (l : List ℚ) : List TierInput :=
  l.map fun q => { amount_usd := q, popup_message := "p", duration_ms := none }

/-- C6: creating a streamer whose tier amounts are not strictly
ascending (equivalently: not ascending or with duplicates) fails with
a validation error and leaves the store unchanged; every streamer a
successful `create_streamer` returns (and persists) has strictly
ascending, pairwise distinct tier amounts; `[1,5,10]` is accepted
while `[5,1,10]` and `[1,1,5]` are rejected. -/
theorem claim_C6_tier_invariant :
    (∀ db sid nm wa platforms tiers avatar thanks,
      ¬ ((tiers.map TierInput.toTier).map fun t => t.amount_usd).Pairwise (· < ·) →
        (create_streamer db sid nm wa platforms tiers avatar thanks).1 = db ∧
        ∃ e, (create_streamer db sid nm wa platforms tiers avatar thanks).2 =
          .error e) ∧
    (∀ db sid nm wa platforms tiers avatar thanks s,
      (create_streamer db sid nm wa platforms tiers avatar thanks).2 = .ok s →
        (s.donation_tiers.map fun t => t.amount_usd).Pairwise (· < ·)) ∧
    (create_streamer [] "i" "n" "0xW" [] (tin [1, 5, 10]) none "t").2 =
      .ok { id := "i", name := "n", wallet_address := "0xW", platforms := []
            donation_tiers := (tin [1, 5, 10]).map TierInput.toTier
            thank_you_message := "t", avatar_url := none } ∧
    create_streamer [] "i" "n" "0xW" [] (tin [5, 1, 10]) none "t" =
      ([], .error .tiersNotSorted) ∧
    create_streamer [] "i" "n" "0xW" [] (tin [1, 1, 5]) none "t" =
      ([], .error .tiersNotUnique) := by
  refine ⟨?_, ?_, ?_, ?_, ?_⟩
  · intro db sid nm wa platforms tiers avatar thanks hnp
    unfold create_streamer
    cases hw : DonationDB.get_streamer_by_wallet db wa with
    | some s => exact ⟨rfl, .walletTaken, rfl⟩
    | none =>
        simp only
        split_ifs with h1 h2
        · exact ⟨rfl, .tiersNotUnique, rfl⟩
        · exact ⟨rfl, .tiersNotSorted, rfl⟩
        · push_neg at h1 h2
          exact absurd (pairwise_lt_of_checks _ h1 h2) hnp
  · intro db sid nm wa platforms tiers avatar thanks s hok
    unfold create_streamer at hok
    cases hw : DonationDB.get_streamer_by_wallet db wa with
    | some s' => rw [hw] at hok; exact absurd hok (by simp)
    | none =>
        rw [hw] at hok
        simp only at hok
        split_ifs at hok with h1 h2
        push_neg at h1 h2
        have hs := Except.ok.inj (show Except.ok _ = Except.ok s from hok)
        rw [← hs]
        exact pairwise_lt_of_checks _ h1 h2
  · decide
  · decide
  · decide

theorem claim_C6_witness :
    (create_streamer [] "i" "n" "0xW" [] (tin [5, 1, 10]) none "t").1 = [] ∧
    ∃ e, (create_streamer [] "i" "n" "0xW" [] (tin [5, 1, 10]) none "t").2 =
      .error e :=
  claim_C6_tier_invariant.1 [] "i" "n" "0xW" [] (tin [5, 1, 10]) none "t"
    (by decide)

/-! ## Donation orchestration (app/services/donation_service.py) -/

/-- `DonationMessageCreateSchema` (models/schemas.py:137-167), the
validated request body. -/
structure DonationMessageCreateSchema where
  amount_usd : ℚ
  donor_address : String
  tx_hash : String
  message : Option String
  clip_url : Option String
deriving DecidableEq, Repr

/-- `DonationResponseSchema` (models/schemas.py:226-...). -/
structure DonationResponseSchema where
  donation_id : String
  popup_message : String
  duration_ms : Int
deriving DecidableEq, Repr

/-- The `ValueError`s of `process_donation` (and the storage error that
a corrupted streamer record propagates), as tags for the distinct
messages raised at each step. -/
inductive PipeErr
  | storageError
  | streamerNotFound
  | streamerInactive
  | invalidDonorAddress
  | invalidStreamerWallet
  | amountOutOfRange (e : Option RangeErr)
  | noMatchingTier
deriving DecidableEq, Repr

/-- `process_donation` (donation_service.py:42-138), with the effects
passed explicitly: `str(uuid.uuid4())` is `gen_id`, `int(time.time())`
is `now`, and the store is threaded through; the returned store is the
input store on every failure path and the store with the new donation
written on success. -/
def process_donation (db : DB) (streamer_id : String)
    (dd : DonationMessageCreateSchema) (gen_id : String) (now : Int) :
    DB × Except PipeErr DonationResponseSchema :=
  match DonationDB.get_streamer db streamer_id with
  | .error _ => (db, .error .storageError)
  | .ok none => (db, .error .streamerNotFound)
  | .ok (some streamer) =>
      if ¬ (validate_streamer_active streamer).1 then
        (db, .error .streamerInactive)
      else if ¬ validate_wallet_address dd.donor_address then
        (db, .error .invalidDonorAddress)
      else if ¬ validate_wallet_address streamer.wallet_address then
        (db, .error .invalidStreamerWallet)
      else if ¬ (validate_amount_range dd.amount_usd).1 then
        (db, .error (.amountOutOfRange (validate_amount_range dd.amount_usd).2))
      else
        match find_matching_tier streamer dd.amount_usd (1/100) with
        | none => (db, .error .noMatchingTier)
        | some matching_tier =>
            let donation : DonationMessage :=
              { donation_id := gen_id
                streamer_id := streamer_id
                amount_usd := dd.amount_usd
                donor_address := dd.donor_address
                message := sanitize_message dd.message 200
                clip_url := dd.clip_url
                timestamp := now
                tx_hash := dd.tx_hash }
            (DonationDB.put_donation db donation,
             .ok { donation_id := gen_id
                   popup_message := matching_tier.popup_message
                   duration_ms := matching_tier.duration_ms })

theorem process_donation_err (db : DB) (streamer_id : String)
    (dd : DonationMessageCreateSchema) (gen_id : String) (now : Int)
    (u : Unit) (h : DonationDB.get_streamer db streamer_id = .error u) :
    process_donation db streamer_id dd gen_id now =
      (db, .error .storageError) := by
  unfold process_donation
  rw [h]

theorem process_donation_none (db : DB) (streamer_id : String)
    (dd : DonationMessageCreateSchema) (gen_id : String) (now : Int)
    (h : DonationDB.get_streamer db streamer_id = .ok none) :
    process_donation db streamer_id dd gen_id now =
      (db, .error .streamerNotFound) := by
  unfold process_donation
  rw [h]

theorem process_donation_some (db : DB) (streamer_id : String)
    (dd : DonationMessageCreateSchema) (gen_id : String) (now : Int)
    (s : Streamer) (h : DonationDB.get_streamer db streamer_id = .ok (some s)) :
    process_donation db streamer_id dd gen_id now =
      (if ¬ validate_wallet_address dd.donor_address then
        (db, .error .invalidDonorAddress)
      else if ¬ validate_wallet_address s.wallet_address then
        (db, .error .invalidStreamerWallet)
      else if ¬ (validate_amount_range dd.amount_usd).1 then
        (db, .error (.amountOutOfRange (validate_amount_range dd.amount_usd).2))
      else
        match find_matching_tier s dd.amount_usd (1/100) with
        | none => (db, .error .noMatchingTier)
        | some matching_tier =>
            (DonationDB.put_donation db
              { donation_id := gen_id
                streamer_id := streamer_id
                amount_usd := dd.amount_usd
                donor_address := dd.donor_address
                message := sanitize_message dd.message 200
                clip_url := dd.clip_url
                timestamp := now
                tx_hash := dd.tx_hash },
             .ok { donation_id := gen_id
                   popup_message := matching_tier.popup_message
                   duration_ms := matching_tier.duration_ms })) := by
  unfold process_donation
  rw [h]
  dsimp only
  rw [if_neg (show ¬¬(validate_streamer_active s).1 = true by
    simp [validate_streamer_active])]

/-- C5: in the donation pipeline every failure halts at its step with
that step's error and persists nothing — the store returned on any
error path is the input store, the persist being the only
side-effecting step and occurring after all validation — while success
returns `{donation_id, popup_message, duration_ms}` taken from the
matched tier, with exactly the constructed donation written. -/
theorem claim_C5_pipeline (db : DB) (streamer_id : String)
    (dd : DonationMessageCreateSchema) (gen_id : String) (now : Int) :
    (∀ e, (process_donation db streamer_id dd gen_id now).2 = .error e →
      (process_donation db streamer_id dd gen_id now).1 = db) ∧
    (DonationDB.get_streamer db streamer_id = .ok none →
      (process_donation db streamer_id dd gen_id now).2 =
        .error .streamerNotFound) ∧
    (∀ s, DonationDB.get_streamer db streamer_id = .ok (some s) →
      validate_wallet_address dd.donor_address = false →
      (process_donation db streamer_id dd gen_id now).2 =
        .error .invalidDonorAddress) ∧
    (∀ s, DonationDB.get_streamer db streamer_id = .ok (some s) →
      validate_wallet_address dd.donor_address = true →
      validate_wallet_address s.wallet_address = false →
      (process_donation db streamer_id dd gen_id now).2 =
        .error .invalidStreamerWallet) ∧
    (∀ s, DonationDB.get_streamer db streamer_id = .ok (some s) →
      validate_wallet_address dd.donor_address = true →
      validate_wallet_address s.wallet_address = true →
      (validate_amount_range dd.amount_usd).1 = false →
      (process_donation db streamer_id dd gen_id now).2 =
        .error (.amountOutOfRange (validate_amount_range dd.amount_usd).2)) ∧
    (∀ s, DonationDB.get_streamer db streamer_id = .ok (some s) →
      validate_wallet_address dd.donor_address = true →
      validate_wallet_address s.wallet_address = true →
      (validate_amount_range dd.amount_usd).1 = true →
      find_matching_tier s dd.amount_usd (1/100) = none →
      (process_donation db streamer_id dd gen_id now).2 =
        .error .noMatchingTier) ∧
    (∀ resp, (process_donation db streamer_id dd gen_id now).2 = .ok resp →
      ∃ s tier, DonationDB.get_streamer db streamer_id = .ok (some s) ∧
        validate_wallet_address dd.donor_address = true ∧
        validate_wallet_address s.wallet_address = true ∧
        (validate_amount_range dd.amount_usd).1 = true ∧
        find_matching_tier s dd.amount_usd (1/100) = some tier ∧
        resp = { donation_id := gen_id, popup_message := tier.popup_message,
                 duration_ms := tier.duration_ms } ∧
        (process_donation db streamer_id dd gen_id now).1 =
          DonationDB.put_donation db
            { donation_id := gen_id, streamer_id := streamer_id,
              amount_usd := dd.amount_usd, donor_address := dd.donor_address,
              tx_hash := dd.tx_hash, timestamp := now,
              message := sanitize_message dd.message 200,
              clip_url := dd.clip_url }) := by
  refine ⟨?_, ?_, ?_, ?_, ?_, ?_, ?_⟩
  · intro e he
    cases hE : DonationDB.get_streamer db streamer_id with
    | error u => rw [process_donation_err db streamer_id dd gen_id now u hE]
    | ok os =>
        cases os with
        | none => rw [process_donation_none db streamer_id dd gen_id now hE]
        | some s =>
            rw [process_donation_some db streamer_id dd gen_id now s hE] at he ⊢
            split_ifs at he ⊢ <;> try rfl
            cases hf : find_matching_tier s dd.amount_usd (1/100) with
            | none => rfl
            | some tier =>
                rw [hf] at he
                exact absurd he (by simp)
  · intro hg
    rw [process_donation_none db streamer_id dd gen_id now hg]
  · intro s hg hd
    rw [process_donation_some db streamer_id dd gen_id now s hg]
    rw [if_pos (by simp [hd])]
  · intro s hg hd hw
    rw [process_donation_some db streamer_id dd gen_id now s hg]
    rw [if_neg (by simp [hd]), if_pos (by simp [hw])]
  · intro s hg hd hw ha
    rw [process_donation_some db streamer_id dd gen_id now s hg]
    rw [if_neg (by simp [hd]), if_neg (by simp [hw]), if_pos (by simp [ha])]
  · intro s hg hd hw ha hf
    rw [process_donation_some db streamer_id dd gen_id now s hg]
    rw [if_neg (by simp [hd]), if_neg (by simp [hw]), if_neg (by simp [ha]), hf]
  · intro resp hok
    cases hE : DonationDB.get_streamer db streamer_id with
    | error u =>
        rw [process_donation_err db streamer_id dd gen_id now u hE] at hok
        exact absurd hok (by simp)
    | ok os =>
        cases os with
        | none =>
            rw [process_donation_none db streamer_id dd gen_id now hE] at hok
            exact absurd hok (by simp)
        | some s =>
            rw [process_donation_some db streamer_id dd gen_id now s hE] at hok
            split_ifs at hok with h2 h3 h4
            cases hf : find_matching_tier s dd.amount_usd (1/100) with
            | none =>
                rw [hf] at hok
                exact Except.noConfusion (show Except.error _ = Except.ok resp from hok)
            | some tier =>
                rw [hf] at hok
                have hok' :=
                  Except.ok.inj (show Except.ok _ = Except.ok resp from hok)
                refine ⟨s, tier, rfl, ?_, ?_, ?_, hf, hok'.symm, ?_⟩
                · simpa using h2
                · simpa using h3
                · simpa using h4
                · rw [process_donation_some db streamer_id dd gen_id now s hE,
                    if_neg (by simp [h2]), if_neg (by simp [h3]),
                    if_neg (by simp [h4]), hf]

theorem claim_C5_witness :
    (process_donation [] "s" ⟨5, "0xd", "0xt", none, none⟩ "g" 0).2 =
      .error .streamerNotFound ∧
    (process_donation [] "s" ⟨5, "0xd", "0xt", none, none⟩ "g" 0).1 = [] := by
  have h := claim_C5_pipeline [] "s" ⟨5, "0xd", "0xt", none, none⟩ "g" 0
  have he := h.2.1 rfl
  exact ⟨he, h.1 _ he⟩

/-! ## Wallet address validation (C3) -/

/-- The address shape in the spec's vocabulary: after removing an
optional `0x`/`0X` prefix, exactly 40 hex digits in any letter case. -/
def hexShape (s : String) : Bool :=
  (strip0x s).data.length == 40 && (strip0x s).data.all isHexDigitChar

/-- C3 (amended): `validate_wallet_address` never throws and returns
true iff its argument is an optionally `0x`/`0X`-prefixed string of
exactly 40 hex digits which, when its digits are neither all-lowercase
nor all-uppercase, equals its own EIP-55 checksum encoding. -/
theorem claim_C3_amended (s : String) :
    validate_wallet_address s = true ↔
      (hexShape s = true ∧
        ((strip0x s ≠ asciiLower (strip0x s) ∧
          strip0x s ≠ asciiUpper (strip0x s)) →
            s = toChecksumAddress s)) := by
  have hshape : isHexAddr s = hexShape s := by
    simp [isHexAddr, isHexStr, hexShape, Bool.and_comm]
  unfold validate_wallet_address isAddress
  cases hA : isHexAddr s with
  | false =>
      have h0 : hexShape s = false := hshape.symm.trans hA
      simp [h0]
  | true =>
      have h1 : hexShape s = true := hshape.symm.trans hA
      simp only [Bool.true_and]
      cases hF : isChecksumFormatted s with
      | false =>
          have hnomix : strip0x s = asciiLower (strip0x s) ∨
              strip0x s = asciiUpper (strip0x s) := by
            unfold isChecksumFormatted at hF
            simp only [hA, Bool.true_and, Bool.and_eq_false_iff,
              bne_eq_false_iff_eq] at hF
            exact hF
          simp only [Bool.not_false, Bool.true_or]
          refine ⟨fun _ => ⟨h1, fun hmix => ?_⟩, fun _ => trivial⟩
          rcases hnomix with h | h
          · exact absurd h hmix.1
          · exact absurd h hmix.2
      | true =>
          have hmix : strip0x s ≠ asciiLower (strip0x s) ∧
              strip0x s ≠ asciiUpper (strip0x s) := by
            unfold isChecksumFormatted at hF
            simp only [hA, Bool.true_and, Bool.and_eq_true, bne_iff_ne] at hF
            exact hF
          simp only [Bool.not_true, Bool.false_or]
          constructor
          · intro hC
            unfold isChecksumAddress at hC
            simp only [hA, Bool.true_and, beq_iff_eq] at hC
            exact ⟨h1, fun _ => hC⟩
          · intro ⟨_, h2⟩
            unfold isChecksumAddress
            simp only [hA, Bool.true_and, beq_iff_eq]
            exact h2 hmix

set_option maxRecDepth 10000 in
/-- C3 counterexample: a string of the claimed shape — lowercase `0x`
followed by exactly 40 hex digits — on which `validate_wallet_address`
returns false: its hex digits mix upper- and lowercase (it is the
EIP-55 test vector `0x5aAeb6053F3E94C9b9A09f33669435E7Ef1BeAed` with
the case of the final letter flipped), so `Web3.is_address` recomputes
the Keccak-256-based checksum and rejects it. -/
theorem claim_C3_counterexample :
    pyStartsWith "0x5aAeb6053F3E94C9b9A09f33669435E7Ef1BeAeD" "0x" = true ∧
    hexShape "0x5aAeb6053F3E94C9b9A09f33669435E7Ef1BeAeD" = true ∧
    validate_wallet_address "0x5aAeb6053F3E94C9b9A09f33669435E7Ef1BeAeD" =
      false := by
  refine ⟨by decide, by decide, by decide⟩

theorem claim_C3_witness :
    validate_wallet_address "0x5aaeb6053f3e94c9b9a09f33669435e7ef1beaed" =
      true :=
  (claim_C3_amended _).mpr ⟨by decide, fun hmix => absurd hmix.1 (by decide)⟩
